import Mathlib

/-!
Verification development for the T-espresso trace data plane
(`src/lib/cutrace_io.h`, `src/lib/Common.h`, `src/lib/InstrumentDevice.cpp`,
`src/lib/RegisterStandardPasses.cpp`).

Machine integers are modelled as `Nat` (bit patterns) and `Int` (signed
values), with explicit wraparound (`% 2^w`) where C performs it.  Files are
modelled as lists of bytes (`List Nat`, each element `< 256`), written and
read little-endian, matching the x86-64 hosts the repository targets
(`fwrite`/`fread` of `uint64_t` values in `cutrace_io.h`).

The accessor macros `RECORD_SET_INIT`, `RECORD_GET_*`, `RECORD_ADDR`,
`RECORD_ADDR_META` and `RECORD_RAW_SIZE` come from the header `TraceIO.h`,
which is included by the sources but is not part of the provided tree; those
definitions are modelled from the spec and carry a doc comment saying so.
-/

namespace Cutrace

/-- Truncate a natural number to its low `w` bits (unsigned wraparound,
as performed by a C cast to a `w`-bit unsigned type). -/
def wrap (w n : Nat) : Nat := n % 2 ^ w

/-- Interpret a bit pattern `n` (expected `< 2 ^ w`) as a `w`-bit
two's-complement signed integer. -/
def toSigned (w n : Nat) : Int :=
  if n < 2 ^ (w - 1) then (n : Int) else (n : Int) - (2 : Int) ^ w

/-- Bit pattern (`w` bits) of the signed integer `i`, i.e. the value a C cast
of `i` to a `w`-bit unsigned type produces. -/
def toUnsigned (w : Nat) (i : Int) : Nat := (i % (2 : Int) ^ w).toNat

/-- Mirror of `trace_record_addr_t` (cutrace_io.h:41-45): one address unit,
a 64-bit address, a 32-bit signed offset and an 8-bit signed count. -/
structure trace_record_addr_t where
  addr : Nat
  offset : Int
  count : Int
deriving DecidableEq

/-- Mirror of `trace_record_t` (cutrace_io.h:47-64).  The `debug` field of the
C struct is omitted: neither `__trace_pack` nor `__trace_unpack` nor any other
code under src/ ever reads or writes it, so it is not part of the transmitted
record.  The flexible array member `addr_unit[]` becomes a list. -/
structure trace_record_t where
  ctaid_x : Nat
  ctaid_y : Nat
  ctaid_z : Nat
  clock : Nat
  warp : Nat
  size : Nat
  type : Nat
  addr_len : Nat
  smid : Nat
  addr_unit : List trace_record_addr_t
deriving DecidableEq

/-- Mirror of `record_t` (Common.h:13-17): the packed wire record.  The three
64-bit header words keep their source names `desc`, `addr`, `cta`; the address
units written past the end of the C struct by `__trace_pack` are modelled as
the list `units` of (address word, meta word) pairs. -/
structure record_t where
  desc : Nat
  addr : Nat
  cta : Nat
  units : List (Nat × Nat)
deriving DecidableEq

/-- Modelled from the spec: the macro `RECORD_SET_INIT` of the missing header
`TraceIO.h` bit-packs the nine header fields into the three 64-bit words of
`record_t` (spec §4.1: "Conceptual 3-word header: word0 = variant tag +
address-unit count + access size + sm_id + warp_id (bit-packed); ...; word2 =
serialized coordinate identifier (32-bit x, 16-bit y, 16-bit z, packed
high-to-low)").  Spec §9 declares the exact bit offsets an open question, so
this model fixes a layout constrained by the sources: `addr_len` must occupy
bits 56-63 of word0, because `trace_next` (cutrace_io.h:172,215) uses byte 7
of the first word both as the frame tag and as the address-unit count; the
`cta` word follows spec §4.1 and the host-side parser
(RegisterStandardPasses.cpp:121-124); `size` and the low 32 bits of `clock`
occupy the middle word, as in the superseded layout kept in comments at
cutrace_io.h:138-152 (there, too, the wire carries only `clock & 0xFFFFFFFF`).
-/
def RECORD_SET_INIT (alen ty smid warp ctax ctay ctaz clock size : Nat) :
    record_t :=
  { desc := wrap 8 alen * 2 ^ 56 + wrap 8 ty * 2 ^ 48 + wrap 8 smid * 2 ^ 40 +
      wrap 32 warp
    addr := wrap 32 size * 2 ^ 32 + wrap 32 clock
    cta := wrap 32 ctax * 2 ^ 32 + wrap 16 ctay * 2 ^ 16 + wrap 16 ctaz
    units := [] }

/-- Modelled from the spec: field getter of the missing `TraceIO.h`
(inverse of the `RECORD_SET_INIT` layout above). -/
def RECORD_GET_ALEN (buf : record_t) : Nat := buf.desc >>> 56 &&& 0xFF

/-- Modelled from the spec: field getter of the missing `TraceIO.h`. -/
def RECORD_GET_TYPE (buf : record_t) : Nat := buf.desc >>> 48 &&& 0xFF

/-- Modelled from the spec: field getter of the missing `TraceIO.h`. -/
def RECORD_GET_SMID (buf : record_t) : Nat := buf.desc >>> 40 &&& 0xFF

/-- Modelled from the spec: field getter of the missing `TraceIO.h`. -/
def RECORD_GET_WARP (buf : record_t) : Nat := buf.desc &&& 0xFFFFFFFF

/-- Modelled from the spec: field getter of the missing `TraceIO.h`. -/
def RECORD_GET_SIZE (buf : record_t) : Nat := buf.addr >>> 32 &&& 0xFFFFFFFF

/-- Modelled from the spec: field getter of the missing `TraceIO.h`. -/
def RECORD_GET_CLOCK (buf : record_t) : Nat := buf.addr &&& 0xFFFFFFFF

/-- Modelled from the spec: field getter of the missing `TraceIO.h`. -/
def RECORD_GET_CTAX (buf : record_t) : Nat := buf.cta >>> 32 &&& 0xFFFFFFFF

/-- Modelled from the spec: field getter of the missing `TraceIO.h`. -/
def RECORD_GET_CTAY (buf : record_t) : Nat := buf.cta >>> 16 &&& 0xFFFF

/-- Modelled from the spec: field getter of the missing `TraceIO.h`. -/
def RECORD_GET_CTAZ (buf : record_t) : Nat := buf.cta &&& 0xFFFF

/-- Modelled from the spec: `RECORD_ADDR(buf, i)` of the missing `TraceIO.h`,
the 64-bit address word of address unit `i` (spec §4.1: "Each extra address
unit is (64-bit address, 32-bit signed offset, 8-bit repeat count)"). -/
def RECORD_ADDR (buf : record_t) (i : Nat) : Nat := (buf.units.getD i (0, 0)).1

/-- Modelled from the spec: `RECORD_ADDR_META(buf, i)` of the missing
`TraceIO.h`, the 64-bit meta word of address unit `i`, holding the offset and
repeat count.  Its contents are fixed by cutrace_io.h:156 (in src/):
`(offset << 8) | ((int64_t)count & 0xFF)`. -/
def RECORD_ADDR_META (buf : record_t) (i : Nat) : Nat :=
  (buf.units.getD i (0, 0)).2

/-- Modelled from the spec: getter for the 32-bit signed offset of address
unit `i`: the meta word, arithmetically shifted right by 8 as an `int64_t`,
narrowed to `int32_t`. -/
def RECORD_GET_OFFSET (buf : record_t) (i : Nat) : Int :=
  toSigned 32 (toUnsigned 32 (toSigned 64 (RECORD_ADDR_META buf i) / 256))

/-- Modelled from the spec: getter for the 8-bit signed repeat count of
address unit `i`: the low byte of the meta word, as `int8_t`. -/
def RECORD_GET_COUNT (buf : record_t) (i : Nat) : Int :=
  toSigned 8 (RECORD_ADDR_META buf i &&& 0xFF)

/-- Modelled from the spec: `RECORD_RAW_SIZE(addr_len)` of the missing
`TraceIO.h`: the wire size of a record, the 24-byte header (`RECORD_SIZE` in
Common.h:21) plus 16 bytes (address word + meta word) per address unit. -/
def RECORD_RAW_SIZE (alen : Nat) : Nat := 24 + 16 * alen

/-- Meta word written for one address unit by `__trace_pack`
(cutrace_io.h:156): `(offset << 8) | ((int64_t)count & 0xFF)`.  The shift
`offset << 8` is performed in 32-bit `int` arithmetic (no promotion to 64
bits happens before the `|`), then the 32-bit result is sign-extended to
`int64_t`. -/
def packAddrMeta (offset count : Int) : Nat :=
  let s32 : Nat := wrap 32 (toUnsigned 32 offset <<< 8)
  let s64 : Nat := toUnsigned 64 (toSigned 32 s32)
  s64 ||| (toUnsigned 64 count &&& 0xFF)

/-- Mirror of `__trace_pack` (cutrace_io.h:131-161).  The loop runs for
`record->addr_len` iterations, `addr_len` being a `uint8_t` field. -/
def __trace_pack (record : trace_record_t) : record_t :=
  let buf := RECORD_SET_INIT record.addr_len record.type record.smid
    record.warp record.ctaid_x record.ctaid_y record.ctaid_z record.clock
    record.size
  { buf with
    units := (List.range (wrap 8 record.addr_len)).map fun i =>
      (wrap 64 (record.addr_unit.getD i ⟨0, 0, 0⟩).addr,
       packAddrMeta (record.addr_unit.getD i ⟨0, 0, 0⟩).offset
         (record.addr_unit.getD i ⟨0, 0, 0⟩).count) }

/-- Mirror of `__trace_unpack` (cutrace_io.h:110-129). -/
def __trace_unpack (buf : record_t) : trace_record_t :=
  { addr_len := RECORD_GET_ALEN buf
    type := RECORD_GET_TYPE buf
    smid := RECORD_GET_SMID buf
    warp := RECORD_GET_WARP buf
    ctaid_x := RECORD_GET_CTAX buf
    ctaid_y := RECORD_GET_CTAY buf
    ctaid_z := RECORD_GET_CTAZ buf
    clock := RECORD_GET_CLOCK buf
    size := RECORD_GET_SIZE buf
    addr_unit := (List.range (RECORD_GET_ALEN buf)).map fun i =>
      { addr := RECORD_ADDR buf i
        offset := RECORD_GET_OFFSET buf i
        count := RECORD_GET_COUNT buf i } }

/-- A record every field of which fits the bit width of its wire field, with
the address-unit offsets allowed their full declared 32-bit signed range
(claim C1 as stated).  `addr_len ≥ 1` as required by the claim, and the
flexible array holds exactly `addr_len` units. -/
def representable32 (r : trace_record_t) : Prop :=
  1 ≤ r.addr_len ∧ r.addr_len < 2 ^ 8 ∧ r.addr_unit.length = r.addr_len ∧
  r.type < 2 ^ 8 ∧ r.smid < 2 ^ 8 ∧ r.warp < 2 ^ 32 ∧
  r.ctaid_x < 2 ^ 32 ∧ r.ctaid_y < 2 ^ 16 ∧ r.ctaid_z < 2 ^ 16 ∧
  r.clock < 2 ^ 32 ∧ r.size < 2 ^ 32 ∧
  ∀ u ∈ r.addr_unit, u.addr < 2 ^ 64 ∧
    -(2 : Int) ^ 31 ≤ u.offset ∧ u.offset < 2 ^ 31 ∧
    -(2 : Int) ^ 7 ≤ u.count ∧ u.count < 2 ^ 7

/-- Like `representable32`, but with each address-unit offset restricted to
the 24-bit signed range that survives the `offset << 8` truncation performed
in 32-bit arithmetic at cutrace_io.h:156. -/
def representable24 (r : trace_record_t) : Prop :=
  1 ≤ r.addr_len ∧ r.addr_len < 2 ^ 8 ∧ r.addr_unit.length = r.addr_len ∧
  r.type < 2 ^ 8 ∧ r.smid < 2 ^ 8 ∧ r.warp < 2 ^ 32 ∧
  r.ctaid_x < 2 ^ 32 ∧ r.ctaid_y < 2 ^ 16 ∧ r.ctaid_z < 2 ^ 16 ∧
  r.clock < 2 ^ 32 ∧ r.size < 2 ^ 32 ∧
  ∀ u ∈ r.addr_unit, u.addr < 2 ^ 64 ∧
    -(2 : Int) ^ 23 ≤ u.offset ∧ u.offset < 2 ^ 23 ∧
    -(2 : Int) ^ 7 ≤ u.count ∧ u.count < 2 ^ 7

instance (r : trace_record_t) : Decidable (representable32 r) := by
  unfold representable32; infer_instance

instance (r : trace_record_t) : Decidable (representable24 r) := by
  unfold representable24; infer_instance

/-- Record used to refute claim C1 as stated: a single address unit whose
offset `2^23` lies inside the declared 32-bit signed width but outside the
24-bit window preserved by the pack path. -/
def rC1 : trace_record_t :=
  { ctaid_x := 0, ctaid_y := 0, ctaid_z := 0, clock := 0, warp := 0, size := 0
    type := 0, addr_len := 1, smid := 0
    addr_unit := [{ addr := 0, offset := 2 ^ 23, count := 0 }] }

/-! File-level model.  A trace file is a list of bytes; multi-byte values are
written and read little-endian (`fwrite`/`fread` of whole `uint64_t` words on
the x86-64 targets of this repository). -/

/-- Little-endian byte serialization of the low `n` bytes of `x`. -/
def leBytes (n x : Nat) : List Nat := (List.range n).map fun i => x / 2 ^ (8 * i) % 256

/-- Reassemble a little-endian byte list into a value (as `fread` into a
`uint64_t` does for an 8-byte list). -/
def leVal : List Nat → Nat
  | [] => 0
  | b :: bs => b + 256 * leVal bs

/-- The 10-byte version-2 magic `v2` (cutrace_io.h:38). -/
def v2 : List Nat := [0x19, 0x43, 0x55, 0x44, 0x41, 0x54, 0x52, 0x41, 0x43, 0x45]

/-- The 10-byte version-3 magic `v3` (cutrace_io.h:39). -/
def v3 : List Nat := [0x1a, 0x43, 0x55, 0x44, 0x41, 0x54, 0x52, 0x41, 0x43, 0x45]

/-- Wire bytes of a packed record as written by `trace_write_record`
(cutrace_io.h:367): the three header words followed by the address units,
`RECORD_RAW_SIZE(addr_len)` bytes in all. -/
def recordWireBytes (buf : record_t) : List Nat :=
  leBytes 8 buf.desc ++ leBytes 8 buf.addr ++ leBytes 8 buf.cta ++
    buf.units.flatMap fun u => leBytes 8 u.1 ++ leBytes 8 u.2

/-- Mirror of `trace_write_header` (cutrace_io.h:312-329).  Result: the C
return value, the bytes appended to the file, and the value left in
`trace_last_error` (`none` models NULL).  `fwrite` of a nonempty buffer is
assumed to succeed (no I/O failure is modelled). -/
def trace_write_header (version : Int) : Nat × List Nat × Option String :=
  if version = 2 then (0, v2, none)
  else if version = 3 then (0, v3, none)
  else (1, [], some "invalid version")

/-- Mirror of `trace_write_kernel` (cutrace_io.h:331-354).  The name is a byte
string (no interior NUL, so `strlen` is its length); `block_size` is a
`uint16_t`.  The 8-byte little-endian header word is written first, then
`name_len` bytes of the name.  `fwrite(name, name_len, 1, f)` returns 0 when
`name_len` is 0 (ISO C: a zero-size write returns zero), which the `< 1`
check turns into "write error" after the header has already been written. -/
def trace_write_kernel (name : List Nat) (block_size : Nat) :
    Nat × List Nat × Option String :=
  let name_len := name.length &&& 0xFF
  let header := (name_len <<< 48) ||| (wrap 16 block_size <<< 32)
  if name_len = 0 then (1, leBytes 8 header, some "write error")
  else (0, leBytes 8 header ++ name.take name_len, none)

/-- Mirror of `trace_write_record` (cutrace_io.h:356-381): pack, then write
`RECORD_RAW_SIZE(record->addr_len)` bytes.  The success path of the C code
returns 0 without touching `trace_last_error`. -/
def trace_write_record (record : trace_record_t) : Nat × List Nat × Option String :=
  let buf := __trace_pack record
  (0, recordWireBytes buf, none)

/-- Mirror of the reader state `trace_t` (cutrace_io.h:66-73).  The `FILE*`
together with the read position becomes `rest`, the not-yet-consumed bytes.
`block_size` and `record` are left uninitialized by `trace_open` (malloc);
they are modelled as starting from zero values. -/
structure trace_t where
  rest : List Nat
  version : Nat
  block_size : Nat
  new_kernel : Nat
  kernel_name : Option (List Nat)
  record : trace_record_t
deriving DecidableEq

/-- The all-zero record used as the model's initial (in C: indeterminate)
reader record. -/
def record0 : trace_record_t :=
  { ctaid_x := 0, ctaid_y := 0, ctaid_z := 0, clock := 0, warp := 0, size := 0
    type := 0, addr_len := 0, smid := 0, addr_unit := [] }

/-- Mirror of `trace_open` (cutrace_io.h:84-108): read 10 bytes (failing if
fewer are available), compare with the two magics, fail otherwise. -/
def trace_open (bytes : List Nat) : Option trace_t :=
  if bytes.length < 10 then none
  else if bytes.take 10 = v2 then
    some ⟨bytes.drop 10, 2, 0, 0, none, record0⟩
  else if bytes.take 10 = v3 then
    some ⟨bytes.drop 10, 3, 0, 0, none, record0⟩
  else none

/-- Reconstruction of a `record_t` from the raw frame bytes read by
`trace_next` (first word plus `RECORD_RAW_SIZE(ch) - 8` further bytes): the
memory image the `RECORD_GET_*` macros are applied to.  The units are read
sequentially, 16 bytes each. -/
def parseUnits : Nat → List Nat → List (Nat × Nat)
  | 0, _ => []
  | k + 1, bs => (leVal (bs.take 8), leVal ((bs.drop 8).take 8)) ::
      parseUnits k (bs.drop 16)

/-- Memory image of one record frame, split into the `record_t` words. -/
def parseRecordBuf (alen : Nat) (bs : List Nat) : record_t :=
  { desc := leVal (bs.take 8)
    addr := leVal ((bs.drop 8).take 8)
    cta := leVal ((bs.drop 16).take 8)
    units := parseUnits alen (bs.drop 24) }

/-- Mirror of `trace_next` (cutrace_io.h:164-254).  Result: the C return
value, the updated reader, and `trace_last_error` after the call.  A failed
8-byte read of the leading word leaves `trace_last_error` NULL ("end of file,
this is not an error", cutrace_io.h:167): the clean end-of-file indication.
Byte 7 of the leading word is the tag `ch`: 0 announces a kernel, anything
else is a record whose address-unit count is `ch` itself.  A zero-length
kernel-name read fails (ISO C: `fread` with size 0 returns 0). -/
def trace_next (t : trace_t) : Nat × trace_t × Option String :=
  if t.rest.length < 8 then (1, t, none)
  else
    let word := leVal (t.rest.take 8)
    let rest := t.rest.drop 8
    let ch := word >>> 56 &&& 0xFF
    if ch = 0 then
      let name_len := word >>> 48 &&& 0xFF
      let block_size := word >>> 32 &&& 0xFFFF
      if name_len = 0 ∨ rest.length < name_len then
        (1, { t with rest := rest }, some "unable to read kernel name length")
      else
        (0, { t with rest := rest.drop name_len
                     kernel_name := some (rest.take name_len)
                     new_kernel := 1
                     block_size := block_size }, none)
    else
      if rest.length < RECORD_RAW_SIZE ch - 8 then
        (1, { t with rest := rest, new_kernel := 0 },
          some "unable to read record")
      else
        (0, { t with rest := rest.drop (RECORD_RAW_SIZE ch - 8)
                     new_kernel := 0
                     record := __trace_unpack
                       (parseRecordBuf ch (t.rest.take (RECORD_RAW_SIZE ch))) },
          none)

/-! Device-side shard selection and coordinate serialization, as emitted by
`InstrumentDevicePass::setupTraceInfo` (InstrumentDevice.cpp).  The emitted IR
computes over `i32`/`i64` values; the `%ctaid.*` and `%smid` reads are 32-bit
and zero-extended to 64 bits. -/

/-- Constant `SLOTS_NUM` (Common.h:29). -/
def SLOTS_NUM : Nat := 4

/-- Constant `SLOTS_SIZE` (Common.h:27). -/
def SLOTS_SIZE : Nat := 64

/-- Constant `RECORD_SIZE` (Common.h:21). -/
def RECORD_SIZE : Nat := 24

/-- Constant `CACHELINE` (Common.h:31). -/
def CACHELINE : Nat := 64

/-- Shard (slot) selection emitted at InstrumentDevice.cpp:430:
`slot = smid & (SLOTS_NUM - 1)` on the 32-bit `%smid` value. -/
def slotOfSmid (smid : Nat) : Nat := wrap 32 smid &&& (SLOTS_NUM - 1)

/-- Byte offset of a shard's alloc/commit counter emitted at
InstrumentDevice.cpp:437: `base_i = slot * CACHELINE` (32-bit multiply). -/
def counterByteOffset (smid : Nat) : Nat := wrap 32 (slotOfSmid smid * CACHELINE)

/-- Coordinate serialization emitted at InstrumentDevice.cpp:413-420 on the
zero-extended 32-bit `%ctaid.x/y/z` values: `LShr(x, 32)`,
`LShr(And(y, 0xFFFF), 16)`, `And(z, 0xFFFF)`, combined with `Or`.  Note both
shifts are LOGICAL SHIFTS RIGHT (`CreateLShr`). -/
def ctaidSerializedDevice (x y z : Nat) : Nat :=
  ((wrap 32 x >>> 32) ||| ((wrap 32 y &&& 0xFFFF) >>> 16)) ||| (wrap 32 z &&& 0xFFFF)

/-- Coordinate identifier as documented in the comment right above that code
(InstrumentDevice.cpp:409-412) and as computed by the host-side argument
parser (`PluginEntry::ParseArgs`, RegisterStandardPasses.cpp:121-124):
`((uint64_t)x << 32) + ((uint64_t)(y & 0xFFFF) << 16) + ((uint64_t)z & 0xFFFF)`. -/
def ctaid_conv (x y z : Nat) : Nat :=
  ((wrap 32 x) <<< 32) + ((wrap 32 y &&& 0xFFFF) <<< 16) + (wrap 32 z &&& 0xFFFF)

/-! Concrete artifacts used by counterexamples and witnesses. -/

/-- Witness record for the amended round-trip: offsets inside the surviving
24-bit window, negative values included. -/
def rW : trace_record_t :=
  { ctaid_x := 7, ctaid_y := 5, ctaid_z := 2, clock := 99, warp := 3, size := 4
    type := 1, addr_len := 3, smid := 6
    addr_unit := [⟨100, 4, 1⟩, ⟨200, -4, 2⟩, ⟨300, 0, -1⟩] }

/-- The file of claim C3's scenario, for the witness: header (version 3),
kernel frame (name "k", i.e. byte 107, block size 32), one record. -/
def fileC3 (r : trace_record_t) : List Nat :=
  (trace_write_header 3).2.1 ++ (trace_write_kernel [107] 32).2.1 ++
    (trace_write_record r).2.1

/-- A valid one-frame file for claim C6's counterexample: version-3 header
followed by a kernel frame with the one-byte name "k"; 19 bytes in all. -/
def fileC6 : List Nat := v3 ++ (trace_write_kernel [107] 32).2.1

/-- A 257-byte kernel name for claim C7's counterexample. -/
def nameC7 : List Nat := List.replicate 257 97

/-- One frame of a trace file between the header and end of file:
either a kernel announcement or a record (spec §3 TraceStream). -/
inductive Frame where
  | kernel (name : List Nat) (block : Nat)
  | record (r : trace_record_t)

/-- The bytes a frame occupies on the wire, as emitted by the writer. -/
def frameBytes : Frame → List Nat
  | .kernel name block => (trace_write_kernel name block).2.1
  | .record r => (trace_write_record r).2.1

/-- Well-formedness of a frame: a kernel name of 1..255 NUL-free bytes with a
16-bit block size, or a representable record. -/
def validFrame : Frame → Prop
  | .kernel name block => (∀ b ∈ name, 0 < b ∧ b < 256) ∧ 1 ≤ name.length ∧
      name.length ≤ 255 ∧ block < 2 ^ 16
  | .record r => representable24 r

instance validFrame_decidable : (f : Frame) → Decidable (validFrame f)
  | .kernel _ _ => by unfold validFrame; infer_instance
  | .record _ => by unfold validFrame; infer_instance

/-- A version-3 trace file made of the given frames. -/
def fileOfFrames (fs : List Frame) : List Nat := v3 ++ fs.flatMap frameBytes

/-- Iterate the reader `k` times, keeping the updated state each time. -/
def skipFrames : trace_t → Nat → trace_t
  | t, 0 => t
  | t, k + 1 => skipFrames (trace_next t).2.1 k

/-- Reader state whose pending bytes are the output of writing an empty-name
kernel frame (claim C4's counterexample; version field from a v3 header). -/
def tC4 : trace_t := ⟨(trace_write_kernel [] 32).2.1, 3, 0, 0, none, record0⟩

/-- Reader state whose pending bytes are the frame for name "k", block 32
(claim C4's witness). -/
def tC4w : trace_t := ⟨(trace_write_kernel [107] 32).2.1, 3, 0, 0, none, record0⟩

/-- Reader state right after opening `fileC6`. -/
def sC6 : trace_t := ⟨(trace_write_kernel [107] 32).2.1, 3, 0, 0, none, record0⟩

/-- Reader state after reading the kernel frame of `fileC6`. -/
def sC6k : trace_t := ⟨[], 3, 32, 1, some [107], record0⟩

/-- Reader state right after opening `fileC6` truncated by 3 bytes. -/
def sC6t : trace_t :=
  ⟨(trace_write_kernel [107] 32).2.1.take 6, 3, 0, 0, none, record0⟩

end Cutrace

namespace Cutrace

/-! Bridge lemmas between the C bit operations and plain arithmetic. -/

theorem land3_eq (x : Nat) : x &&& 3 = x % 4 := by
  have h := Nat.and_pow_two_sub_one_eq_mod x 2
  norm_num at h
  exact h

theorem land255_eq (x : Nat) : x &&& 255 = x % 256 := by
  have h := Nat.and_pow_two_sub_one_eq_mod x 8
  norm_num at h
  exact h

theorem land65535_eq (x : Nat) : x &&& 65535 = x % 65536 := by
  have h := Nat.and_pow_two_sub_one_eq_mod x 16
  norm_num at h
  exact h

theorem land4294967295_eq (x : Nat) : x &&& 4294967295 = x % 4294967296 := by
  have h := Nat.and_pow_two_sub_one_eq_mod x 32
  norm_num at h
  exact h

theorem lor_disjoint {a b k : Nat} (ha : a % 2 ^ k = 0) (hb : b < 2 ^ k) :
    a ||| b = a + b := by
  have hd : 2 ^ k * (a / 2 ^ k) = a := by
    rw [mul_comm]; exact Nat.div_mul_cancel (Nat.dvd_of_mod_eq_zero ha)
  calc a ||| b = 2 ^ k * (a / 2 ^ k) ||| b := by rw [hd]
    _ = 2 ^ k * (a / 2 ^ k) + b := (Nat.mul_add_lt_is_or hb _).symm
    _ = a + b := by rw [hd]

/-! Round-trip of one address-unit meta word. -/

theorem s64_mod_256 (o : Int) :
    toUnsigned 64 (toSigned 32 (wrap 32 (toUnsigned 32 o <<< 8))) % 256 = 0 := by
  simp only [toUnsigned, toSigned, wrap, Nat.shiftLeft_eq]
  split <;> omega

theorem packAddrMeta_eq (o c : Int) :
    packAddrMeta o c =
      toUnsigned 64 (toSigned 32 (wrap 32 (toUnsigned 32 o <<< 8))) +
        toUnsigned 64 c % 256 := by
  simp only [packAddrMeta, land255_eq]
  exact lor_disjoint (k := 8) (s64_mod_256 o) (by omega)

theorem packAddrMeta_lt (o c : Int) : packAddrMeta o c < 2 ^ 64 := by
  rw [packAddrMeta_eq]
  simp only [toUnsigned, toSigned, wrap, Nat.shiftLeft_eq]
  split <;> omega

theorem count_roundtrip (o c : Int) (hc1 : -(2 : Int) ^ 7 ≤ c)
    (hc2 : c < 2 ^ 7) : toSigned 8 (packAddrMeta o c &&& 0xFF) = c := by
  rw [packAddrMeta_eq, land255_eq]
  simp only [toUnsigned, toSigned, wrap, Nat.shiftLeft_eq]
  split <;> split <;> omega

theorem offset_roundtrip (o c : Int) (ho1 : -(2 : Int) ^ 23 ≤ o)
    (ho2 : o < 2 ^ 23) :
    toSigned 32 (toUnsigned 32 (toSigned 64 (packAddrMeta o c) / 256)) = o := by
  rw [packAddrMeta_eq]
  simp only [toUnsigned, toSigned, wrap, Nat.shiftLeft_eq]
  split <;> split <;> split <;> omega

/-! Header word round-trips: each getter recovers the field stored by
`RECORD_SET_INIT` through `__trace_pack`. -/

theorem pack_GET_ALEN (r : trace_record_t) :
    RECORD_GET_ALEN (__trace_pack r) = wrap 8 r.addr_len := by
  simp only [__trace_pack, RECORD_GET_ALEN, RECORD_SET_INIT,
    Nat.shiftRight_eq_div_pow, land255_eq, wrap]
  omega

theorem pack_GET_TYPE (r : trace_record_t) :
    RECORD_GET_TYPE (__trace_pack r) = wrap 8 r.type := by
  simp only [__trace_pack, RECORD_GET_TYPE, RECORD_SET_INIT,
    Nat.shiftRight_eq_div_pow, land255_eq, wrap]
  omega

theorem pack_GET_SMID (r : trace_record_t) :
    RECORD_GET_SMID (__trace_pack r) = wrap 8 r.smid := by
  simp only [__trace_pack, RECORD_GET_SMID, RECORD_SET_INIT,
    Nat.shiftRight_eq_div_pow, land255_eq, wrap]
  omega

theorem pack_GET_WARP (r : trace_record_t) :
    RECORD_GET_WARP (__trace_pack r) = wrap 32 r.warp := by
  simp only [__trace_pack, RECORD_GET_WARP, RECORD_SET_INIT,
    land4294967295_eq, wrap]
  omega

theorem pack_GET_SIZE (r : trace_record_t) :
    RECORD_GET_SIZE (__trace_pack r) = wrap 32 r.size := by
  simp only [__trace_pack, RECORD_GET_SIZE, RECORD_SET_INIT,
    Nat.shiftRight_eq_div_pow, land4294967295_eq, wrap]
  omega

theorem pack_GET_CLOCK (r : trace_record_t) :
    RECORD_GET_CLOCK (__trace_pack r) = wrap 32 r.clock := by
  simp only [__trace_pack, RECORD_GET_CLOCK, RECORD_SET_INIT,
    land4294967295_eq, wrap]
  omega

theorem pack_GET_CTAX (r : trace_record_t) :
    RECORD_GET_CTAX (__trace_pack r) = wrap 32 r.ctaid_x := by
  simp only [__trace_pack, RECORD_GET_CTAX, RECORD_SET_INIT,
    Nat.shiftRight_eq_div_pow, land4294967295_eq, wrap]
  omega

theorem pack_GET_CTAY (r : trace_record_t) :
    RECORD_GET_CTAY (__trace_pack r) = wrap 16 r.ctaid_y := by
  simp only [__trace_pack, RECORD_GET_CTAY, RECORD_SET_INIT,
    Nat.shiftRight_eq_div_pow, land65535_eq, wrap]
  omega

theorem pack_GET_CTAZ (r : trace_record_t) :
    RECORD_GET_CTAZ (__trace_pack r) = wrap 16 r.ctaid_z := by
  simp only [__trace_pack, RECORD_GET_CTAZ, RECORD_SET_INIT,
    land65535_eq, wrap]
  omega

theorem pack_units_getD (r : trace_record_t) (i : Nat)
    (h : i < wrap 8 r.addr_len) :
    (__trace_pack r).units.getD i (0, 0) =
      (wrap 64 (r.addr_unit.getD i ⟨0, 0, 0⟩).addr,
       packAddrMeta (r.addr_unit.getD i ⟨0, 0, 0⟩).offset
         (r.addr_unit.getD i ⟨0, 0, 0⟩).count) := by
  simp only [__trace_pack, List.getD, List.get?_eq_getElem?, List.getElem?_map]
  rw [List.getElem?_range h]
  rfl

/-- Amended round-trip, the workhorse of claim C1: for every record whose
fields fit their wire widths and whose address-unit offsets lie in the 24-bit
signed window, unpacking the packed form restores the record exactly. -/
theorem unpack_pack (r : trace_record_t) (h : representable24 r) :
    __trace_unpack (__trace_pack r) = r := by
  obtain ⟨h1, h2, h3, h4, h5, h6, h7, h8, h9, h10, h11, hu⟩ := h
  have halen : wrap 8 r.addr_len = r.addr_len := Nat.mod_eq_of_lt h2
  have hget := pack_GET_ALEN r
  rw [halen] at hget
  simp only [__trace_unpack, hget, pack_GET_TYPE, pack_GET_SMID, pack_GET_WARP,
    pack_GET_SIZE, pack_GET_CLOCK, pack_GET_CTAX, pack_GET_CTAY, pack_GET_CTAZ]
  cases r with
  | mk cx cy cz ck w sz ty al sm au =>
  simp only at *
  congr 1
  all_goals try (simp only [wrap]; omega)
  · -- the address-unit list
    apply List.ext_getElem
    · simp [h3]
    · intro i hi1 hi2
      simp only [List.getElem_map, List.getElem_range]
      have hilt : i < al := by simpa [h3] using hi2
      have hmem : au.getD i ⟨0, 0, 0⟩ ∈ au := by
        rw [List.getD_eq_getElem au ⟨0, 0, 0⟩ (by omega)]
        exact List.getElem_mem _
      obtain ⟨ha, ho1, ho2, hc1, hc2⟩ := hu _ hmem
      have hwr : wrap 8 al = al := Nat.mod_eq_of_lt h2
      have hgd := pack_units_getD ⟨cx, cy, cz, ck, w, sz, ty, al, sm, au⟩ i
        (by simpa [hwr] using hilt)
      simp only at hgd
      simp only [RECORD_ADDR, RECORD_GET_OFFSET, RECORD_GET_COUNT,
        RECORD_ADDR_META, hgd]
      rw [List.getD_eq_getElem au ⟨0, 0, 0⟩ (by omega)] at *
      have := offset_roundtrip (au[i].offset) (au[i].count) ho1 ho2
      have := count_roundtrip (au[i].offset) (au[i].count) hc1 hc2
      have haddr : wrap 64 au[i].addr = au[i].addr := Nat.mod_eq_of_lt ha
      cases hau : au[i] with
      | mk a o c =>
      simp only [hau] at *
      simp_all

/-! Byte-level lemmas. -/

theorem leBytes_length (n x : Nat) : (leBytes n x).length = n := by
  simp [leBytes]

theorem leBytes_byte_lt (n x : Nat) : ∀ b ∈ leBytes n x, b < 256 := by
  intro b hb
  simp only [leBytes, List.mem_map] at hb
  obtain ⟨i, _, rfl⟩ := hb
  omega

theorem range8_eq : List.range 8 = [0, 1, 2, 3, 4, 5, 6, 7] := by rfl

theorem leVal_leBytes8 (x : Nat) : leVal (leBytes 8 x) = x % 2 ^ 64 := by
  simp only [leBytes, range8_eq, List.map_cons, List.map_nil, leVal]
  norm_num
  omega

theorem take_app_leBytes8 (x : Nat) (rest : List Nat) :
    (leBytes 8 x ++ rest).take 8 = leBytes 8 x := by
  rw [show 8 = (leBytes 8 x).length from (leBytes_length 8 x).symm]
  exact List.take_left _ _

theorem drop_app_leBytes8 (x : Nat) (rest : List Nat) :
    (leBytes 8 x ++ rest).drop 8 = rest := by
  rw [show 8 = (leBytes 8 x).length from (leBytes_length 8 x).symm]
  exact List.drop_left _ _

theorem take_app_eq_self (l rest : List Nat) :
    (l ++ rest).take l.length = l := List.take_left _ _

theorem drop_app_eq_self (l rest : List Nat) :
    (l ++ rest).drop l.length = rest := List.drop_left _ _

/-- Byte list of the address units of a packed record. -/
theorem unitsBytes_length (us : List (Nat × Nat)) :
    (us.flatMap fun u => leBytes 8 u.1 ++ leBytes 8 u.2).length =
      16 * us.length := by
  induction us with
  | nil => simp
  | cons u us ih => simp [List.flatMap_cons, ih, leBytes_length]; omega

theorem recordWireBytes_length (buf : record_t) :
    (recordWireBytes buf).length = 24 + 16 * buf.units.length := by
  simp only [recordWireBytes, List.length_append, leBytes_length,
    unitsBytes_length]

theorem parseUnits_unitsBytes (us : List (Nat × Nat))
    (h : ∀ u ∈ us, u.1 < 2 ^ 64 ∧ u.2 < 2 ^ 64) :
    parseUnits us.length (us.flatMap fun u => leBytes 8 u.1 ++ leBytes 8 u.2) =
      us := by
  induction us with
  | nil => simp [parseUnits]
  | cons u us ih =>
    obtain ⟨h1, h2⟩ := h u (List.mem_cons_self u us)
    simp only [List.flatMap_cons, List.length_cons, parseUnits,
      List.append_assoc]
    rw [take_app_leBytes8, drop_app_leBytes8, take_app_leBytes8,
      show (16 : Nat) = 8 + 8 from rfl, ← List.drop_drop, drop_app_leBytes8,
      drop_app_leBytes8, leVal_leBytes8, leVal_leBytes8,
      Nat.mod_eq_of_lt h1, Nat.mod_eq_of_lt h2]
    rw [ih fun v hv => h v (List.mem_cons_of_mem u hv)]

/-! Bounds on the words of a packed record. -/

theorem pack_desc_lt (r : trace_record_t) : (__trace_pack r).desc < 2 ^ 64 := by
  simp only [__trace_pack, RECORD_SET_INIT, wrap]
  omega

theorem pack_addr_lt (r : trace_record_t) : (__trace_pack r).addr < 2 ^ 64 := by
  simp only [__trace_pack, RECORD_SET_INIT, wrap]
  omega

theorem pack_cta_lt (r : trace_record_t) : (__trace_pack r).cta < 2 ^ 64 := by
  simp only [__trace_pack, RECORD_SET_INIT, wrap]
  omega

theorem pack_units_lt (r : trace_record_t) :
    ∀ u ∈ (__trace_pack r).units, u.1 < 2 ^ 64 ∧ u.2 < 2 ^ 64 := by
  intro u hu
  simp only [__trace_pack, List.mem_map] at hu
  obtain ⟨i, _, rfl⟩ := hu
  exact ⟨Nat.mod_lt _ (by norm_num), packAddrMeta_lt _ _⟩

theorem pack_units_length (r : trace_record_t) :
    (__trace_pack r).units.length = wrap 8 r.addr_len := by
  simp [__trace_pack]

/-- Parsing the wire bytes of a packed record restores the packed record. -/
theorem parseRecordBuf_wire (buf : record_t) (hd : buf.desc < 2 ^ 64)
    (ha : buf.addr < 2 ^ 64) (hc : buf.cta < 2 ^ 64)
    (hu : ∀ u ∈ buf.units, u.1 < 2 ^ 64 ∧ u.2 < 2 ^ 64) :
    parseRecordBuf buf.units.length (recordWireBytes buf) = buf := by
  have hdrop8 : (recordWireBytes buf).drop 8 = leBytes 8 buf.addr ++
      (leBytes 8 buf.cta ++ buf.units.flatMap fun u =>
        leBytes 8 u.1 ++ leBytes 8 u.2) := by
    simp only [recordWireBytes, List.append_assoc]
    exact drop_app_leBytes8 _ _
  have hdrop16 : (recordWireBytes buf).drop 16 = leBytes 8 buf.cta ++
      buf.units.flatMap fun u => leBytes 8 u.1 ++ leBytes 8 u.2 := by
    rw [show (16 : Nat) = 8 + 8 from rfl, ← List.drop_drop, hdrop8,
      drop_app_leBytes8]
  have hdrop24 : (recordWireBytes buf).drop 24 =
      buf.units.flatMap fun u => leBytes 8 u.1 ++ leBytes 8 u.2 := by
    rw [show (24 : Nat) = 16 + 8 from rfl, ← List.drop_drop, hdrop16,
      drop_app_leBytes8]
  have htake8 : (recordWireBytes buf).take 8 = leBytes 8 buf.desc := by
    simp only [recordWireBytes, List.append_assoc]
    exact take_app_leBytes8 _ _
  simp only [parseRecordBuf, htake8, hdrop8, hdrop16, hdrop24,
    take_app_leBytes8, leVal_leBytes8, Nat.mod_eq_of_lt hd,
    Nat.mod_eq_of_lt ha, Nat.mod_eq_of_lt hc, parseUnits_unitsBytes _ hu]

/-! Single reader steps over a written frame. -/

/-- What a successful kernel-frame write emits: the 8-byte little-endian
header word (name length in byte 6, block size in bytes 4-5, all other bits
zero) followed by the raw name bytes. -/
theorem trace_write_kernel_eq (name : List Nat) (block : Nat)
    (h1 : 1 ≤ name.length) (h2 : name.length ≤ 255) (hb : block < 2 ^ 16) :
    trace_write_kernel name block =
      (0, leBytes 8 (name.length * 2 ^ 48 + block * 2 ^ 32) ++ name, none) := by
  have hlen : name.length &&& 0xFF = name.length := by
    rw [land255_eq]; omega
  have hwrapb : wrap 16 block = block := Nat.mod_eq_of_lt hb
  have hheader : name.length <<< 48 ||| (wrap 16 block <<< 32) =
      name.length * 2 ^ 48 + block * 2 ^ 32 := by
    rw [hwrapb, Nat.shiftLeft_eq, Nat.shiftLeft_eq]
    exact lor_disjoint (k := 48) (by omega) (by omega)
  simp only [trace_write_kernel, hlen, hheader]
  rw [if_neg (by omega), List.take_length]

/-- A successfully written kernel frame, followed by anything, is read back as
this kernel's announcement. -/
theorem trace_next_kernel (t : trace_t) (name : List Nat) (block : Nat)
    (tail : List Nat) (h1 : 1 ≤ name.length) (h2 : name.length ≤ 255)
    (hb : block < 2 ^ 16)
    (hrest : t.rest = (trace_write_kernel name block).2.1 ++ tail) :
    trace_next t = (0, { t with rest := tail, kernel_name := some name
                                new_kernel := 1, block_size := block }, none) := by
  have hout : (trace_write_kernel name block).2.1 =
      leBytes 8 (name.length * 2 ^ 48 + block * 2 ^ 32) ++ name := by
    rw [trace_write_kernel_eq name block h1 h2 hb]
  rw [hout, List.append_assoc] at hrest
  have hword : leVal (t.rest.take 8) = name.length * 2 ^ 48 + block * 2 ^ 32 := by
    rw [hrest, take_app_leBytes8, leVal_leBytes8]
    omega
  have hrlen : 8 ≤ t.rest.length := by
    rw [hrest]; simp [leBytes_length]
  have hdrop : t.rest.drop 8 = name ++ tail := by
    rw [hrest, drop_app_leBytes8]
  simp only [trace_next, if_neg (by omega : ¬t.rest.length < 8), hword, hdrop]
  rw [Nat.shiftRight_eq_div_pow, Nat.shiftRight_eq_div_pow,
    Nat.shiftRight_eq_div_pow, land255_eq, land255_eq, land65535_eq]
  rw [if_pos (by omega)]
  rw [if_neg (by simp [List.length_append]; omega)]
  rw [show (name.length * 2 ^ 48 + block * 2 ^ 32) / 2 ^ 48 % 256 =
    name.length by omega]
  rw [show (name.length * 2 ^ 48 + block * 2 ^ 32) / 2 ^ 32 % 65536 =
    block by omega]
  rw [take_app_eq_self, drop_app_eq_self]

/-- A successfully written record frame, followed by anything, is read back as
exactly the packed record. -/
theorem trace_next_record (t : trace_t) (r : trace_record_t) (tail : List Nat)
    (h : representable24 r)
    (hrest : t.rest = (trace_write_record r).2.1 ++ tail) :
    trace_next t = (0, { t with rest := tail, new_kernel := 0, record := r },
      none) := by
  obtain ⟨h1, h2, h3, h4, h5, h6, h7, h8, h9, h10, h11, hu⟩ := h
  have halen : wrap 8 r.addr_len = r.addr_len := Nat.mod_eq_of_lt h2
  have hwire : (trace_write_record r).2.1 = recordWireBytes (__trace_pack r) :=
    rfl
  have hwlen : (recordWireBytes (__trace_pack r)).length =
      24 + 16 * r.addr_len := by
    rw [recordWireBytes_length, pack_units_length, halen]
  have hdesclt := pack_desc_lt r
  have hch : leVal (t.rest.take 8) >>> 56 &&& 0xFF = r.addr_len := by
    rw [hrest, hwire]
    simp only [recordWireBytes, List.append_assoc]
    rw [take_app_leBytes8, leVal_leBytes8, Nat.mod_eq_of_lt hdesclt]
    have := pack_GET_ALEN r
    rw [halen] at this
    simpa [RECORD_GET_ALEN] using this
  have hrlen : t.rest.length = 24 + 16 * r.addr_len + tail.length := by
    rw [hrest, List.length_append, hwire, hwlen]
  simp only [trace_next, if_neg (by omega : ¬t.rest.length < 8), hch]
  rw [if_neg (by omega)]
  rw [if_neg (by simp only [List.length_drop, RECORD_RAW_SIZE]; omega)]
  have htake : t.rest.take (RECORD_RAW_SIZE r.addr_len) =
      recordWireBytes (__trace_pack r) := by
    rw [hrest, hwire, show RECORD_RAW_SIZE r.addr_len =
      (recordWireBytes (__trace_pack r)).length by rw [hwlen]; rfl,
      take_app_eq_self]
  have hparse : parseRecordBuf r.addr_len (recordWireBytes (__trace_pack r)) =
      __trace_pack r := by
    have := parseRecordBuf_wire (__trace_pack r) (pack_desc_lt r)
      (pack_addr_lt r) (pack_cta_lt r) (pack_units_lt r)
    rwa [pack_units_length, halen] at this
  rw [htake, hparse, unpack_pack r ⟨h1, h2, h3, h4, h5, h6, h7, h8, h9, h10,
    h11, hu⟩]
  have hdrop : (t.rest.drop 8).drop (RECORD_RAW_SIZE r.addr_len - 8) = tail := by
    rw [List.drop_drop, show 8 + (RECORD_RAW_SIZE r.addr_len - 8) =
      (recordWireBytes (__trace_pack r)).length by
        rw [hwlen]; simp only [RECORD_RAW_SIZE]; omega]
    rw [hrest, hwire, drop_app_eq_self]
  rw [hdrop]

/-! Opening files and skipping over well-formed frames. -/

theorem trace_open_v3 (rest : List Nat) :
    trace_open (v3 ++ rest) = some ⟨rest, 3, 0, 0, none, record0⟩ := by
  have hlen : (v3 ++ rest).length = 10 + rest.length := by simp [v3]; omega
  have htake : (v3 ++ rest).take 10 = v3 := take_app_eq_self v3 rest
  have hdrop : (v3 ++ rest).drop 10 = rest := drop_app_eq_self v3 rest
  simp only [trace_open, htake, hdrop]
  rw [if_neg (by omega), if_neg (by decide)]
  simp

theorem skipFrames_rest (fs : List Frame) (t : trace_t) (tail : List Nat)
    (hv : ∀ g ∈ fs, validFrame g)
    (hrest : t.rest = fs.flatMap frameBytes ++ tail) :
    (skipFrames t fs.length).rest = tail := by
  induction fs generalizing t with
  | nil => simpa [skipFrames] using hrest
  | cons g fs ih =>
    have hg := hv g (List.mem_cons_self g fs)
    have hrest2 : t.rest = frameBytes g ++ (fs.flatMap frameBytes ++ tail) := by
      simpa [List.flatMap_cons, List.append_assoc] using hrest
    simp only [List.length_cons, skipFrames]
    cases g with
    | kernel name block =>
      obtain ⟨_, h1, h2, hb⟩ := hg
      rw [trace_next_kernel t name block (fs.flatMap frameBytes ++ tail)
        h1 h2 hb hrest2]
      exact ih _ (fun g hgm => hv g (List.mem_cons_of_mem _ hgm)) rfl
    | record r =>
      rw [trace_next_record t r (fs.flatMap frameBytes ++ tail) hg hrest2]
      exact ih _ (fun g hgm => hv g (List.mem_cons_of_mem _ hgm)) rfl

/-- Reading a kernel frame whose name was cut (at least one name byte is
missing, but the 8-byte header survived) fails with the kernel-name error. -/
theorem trace_next_cut_kernel (t : trace_t) (name : List Nat) (block : Nat)
    (k : Nat) (h1 : 1 ≤ name.length) (h2 : name.length ≤ 255)
    (hb : block < 2 ^ 16) (hk : k < name.length)
    (hrest : t.rest = leBytes 8 (name.length * 2 ^ 48 + block * 2 ^ 32) ++
      name.take k) :
    trace_next t = (1, { t with rest := name.take k },
      some "unable to read kernel name length") := by
  have hword : leVal (t.rest.take 8) = name.length * 2 ^ 48 + block * 2 ^ 32 := by
    rw [hrest, take_app_leBytes8, leVal_leBytes8]
    omega
  have hrlen : t.rest.length = 8 + min k name.length := by
    rw [hrest]; simp [leBytes_length]
  have hdrop : t.rest.drop 8 = name.take k := by
    rw [hrest, drop_app_leBytes8]
  simp only [trace_next, if_neg (by omega : ¬t.rest.length < 8), hword, hdrop]
  rw [Nat.shiftRight_eq_div_pow, Nat.shiftRight_eq_div_pow, land255_eq,
    land255_eq]
  rw [if_pos (by omega)]
  rw [if_pos (Or.inr (by simp [List.length_take]; omega))]

/-- Reading a record frame whose bytes were cut (fewer than
`RECORD_RAW_SIZE` bytes remain, but the leading word survived) fails with the
record-read error. -/
theorem trace_next_cut_record (t : trace_t) (r : trace_record_t) (k : Nat)
    (h : representable24 r) (h8 : 8 ≤ k)
    (hk : k < RECORD_RAW_SIZE r.addr_len)
    (hrest : t.rest = (recordWireBytes (__trace_pack r)).take k) :
    trace_next t = (1, { t with rest := t.rest.drop 8, new_kernel := 0 },
      some "unable to read record") := by
  obtain ⟨h1, h2, h3, h4, h5, h6, h7, h8f, h9, h10, h11, hu⟩ := h
  have halen : wrap 8 r.addr_len = r.addr_len := Nat.mod_eq_of_lt h2
  have hwlen : (recordWireBytes (__trace_pack r)).length =
      24 + 16 * r.addr_len := by
    rw [recordWireBytes_length, pack_units_length, halen]
  have hrlen : t.rest.length = k := by
    rw [hrest, List.length_take]
    simp only [RECORD_RAW_SIZE] at hk
    omega
  have htake8 : t.rest.take 8 = (recordWireBytes (__trace_pack r)).take 8 := by
    rw [hrest, List.take_take, Nat.min_eq_left h8]
  have hch : leVal (t.rest.take 8) >>> 56 &&& 0xFF = r.addr_len := by
    rw [htake8]
    conv_lhs => rw [show (recordWireBytes (__trace_pack r)).take 8 =
      leBytes 8 (__trace_pack r).desc from by
        simp only [recordWireBytes, List.append_assoc]
        exact take_app_leBytes8 _ _]
    rw [leVal_leBytes8, Nat.mod_eq_of_lt (pack_desc_lt r)]
    have := pack_GET_ALEN r
    rw [halen] at this
    simpa [RECORD_GET_ALEN] using this
  simp only [trace_next, if_neg (by omega : ¬t.rest.length < 8), hch]
  rw [if_neg (by omega)]
  have hcond : (t.rest.drop 8).length < RECORD_RAW_SIZE r.addr_len - 8 := by
    simp only [List.length_drop, RECORD_RAW_SIZE] at hk ⊢
    omega
  rw [if_pos hcond]

/-! Claim theorems. -/

/-- Claim C1, counterexample: the record `rC1` has every field inside its
declared width (`addr_len = 1`, a 64-bit address, the 32-bit signed offset
`2^23` and an 8-bit count), yet unpacking its packed form does not restore it:
`offset << 8` is computed in 32-bit arithmetic at cutrace_io.h:156, so the top
8 bits of a 32-bit offset are lost (here the offset comes back as `-2^23`). -/
theorem C1_counterexample :
    representable32 rC1 ∧ __trace_unpack (__trace_pack rC1) ≠ rC1 :=
  ⟨by decide, by decide⟩

/-- Claim C1, amended: `__trace_unpack (__trace_pack r) = r` for every record
whose fields fit their wire widths, with each address-unit offset restricted
to the 24-bit signed range `[-2^23, 2^23)` (instead of the full 32-bit signed
range the claim states). -/
theorem C1_roundtrip (r : trace_record_t) (h : representable24 r) :
    __trace_unpack (__trace_pack r) = r :=
  unpack_pack r h

/-- Witness for `C1_roundtrip` at the concrete record `rW`. -/
theorem C1_roundtrip_witness :
    representable24 rW ∧ __trace_unpack (__trace_pack rW) = rW :=
  ⟨by decide, C1_roundtrip rW (by decide)⟩

/-- Claim C2: the device pass's serialized coordinate identifier is claimed to
equal `(x << 32) | (y << 16) | z`; the emitted code instead uses logical
SHIFTS RIGHT (`CreateLShr`, InstrumentDevice.cpp:413-415), so for
`(x, y, z) = (1, 2, 3)` it produces `3` where the claimed packing — also the
one in the code's own comment (InstrumentDevice.cpp:409-412) and in the
host-side parser (`ctaid_conv`, RegisterStandardPasses.cpp:121-124) — gives
`(1 << 32) | (2 << 16) | 3 = 4295098371`.  The x and y coordinates are
erased entirely. -/
theorem C2_ctaid_lshr_bug :
    ctaidSerializedDevice 1 2 3 = 3 ∧ ctaid_conv 1 2 3 = 4295098371 ∧
      ctaidSerializedDevice 1 2 3 ≠ ctaid_conv 1 2 3 := by
  refine ⟨by decide, by decide, by decide⟩

/-- Claim C3: writing a version-3 header, a kernel frame (name "k", block
size 32) and one 3-unit record, then reopening the file, yields the kernel
frame, then the record written, then the clean end-of-file indication
(`trace_next` returning 1 with `trace_last_error` NULL). -/
theorem C3_write_read_roundtrip (r : trace_record_t) (h : representable24 r)
    (h3 : r.addr_len = 3) :
    ∃ s1 s2 s3 : trace_t,
      trace_open (fileC3 r) = some s1 ∧ s1.version = 3 ∧
      trace_next s1 = (0, s2, none) ∧ s2.kernel_name = some [107] ∧
        s2.block_size = 32 ∧ s2.new_kernel = 1 ∧
      trace_next s2 = (0, s3, none) ∧ s3.record = r ∧
      trace_next s3 = (1, s3, none) := by
  have hfile : fileC3 r = v3 ++ ((trace_write_kernel [107] 32).2.1 ++
      (trace_write_record r).2.1) := by
    simp [fileC3, trace_write_header, List.append_assoc]
  have hopen : trace_open (fileC3 r) = some ⟨(trace_write_kernel [107] 32).2.1
      ++ (trace_write_record r).2.1, 3, 0, 0, none, record0⟩ := by
    rw [hfile, trace_open_v3]
  have hk : trace_next ⟨(trace_write_kernel [107] 32).2.1 ++
      (trace_write_record r).2.1, 3, 0, 0, none, record0⟩ =
      (0, ⟨(trace_write_record r).2.1, 3, 32, 1, some [107], record0⟩, none) :=
    trace_next_kernel _ [107] 32 ((trace_write_record r).2.1) (by decide)
      (by decide) (by decide) rfl
  have hr : trace_next ⟨(trace_write_record r).2.1, 3, 32, 1, some [107],
      record0⟩ = (0, ⟨[], 3, 32, 0, some [107], r⟩, none) := by
    have := trace_next_record ⟨(trace_write_record r).2.1, 3, 32, 1,
      some [107], record0⟩ r [] h (by simp)
    exact this
  have heof : trace_next ⟨[], 3, 32, 0, some [107], r⟩ =
      (1, ⟨[], 3, 32, 0, some [107], r⟩, none) := by
    simp [trace_next]
  exact ⟨_, _, _, hopen, rfl, hk, rfl, rfl, rfl, hr, rfl, heof⟩

/-- Witness for `C3_write_read_roundtrip` at the concrete record `rW`. -/
theorem C3_write_read_roundtrip_witness :
    ∃ s1 s2 s3 : trace_t,
      trace_open (fileC3 rW) = some s1 ∧ s1.version = 3 ∧
      trace_next s1 = (0, s2, none) ∧ s2.kernel_name = some [107] ∧
        s2.block_size = 32 ∧ s2.new_kernel = 1 ∧
      trace_next s2 = (0, s3, none) ∧ s3.record = rW ∧
      trace_next s3 = (1, s3, none) :=
  C3_write_read_roundtrip rW (by decide) (by decide)

/-- Claim C4, counterexample: for the empty kernel name (length 0, inside the
claimed bound "at most 255 bytes") the writer fails after emitting only the
8-byte header, and reading that frame back does not yield the name: it fails
with the kernel-name error, because a zero-length `fread` returns 0. -/
theorem C4_counterexample :
    (trace_write_kernel [] 32).1 = 1 ∧
    (trace_write_kernel [] 32).2.2 = some "write error" ∧
    trace_next tC4 = (1, { tC4 with rest := [] },
      some "unable to read kernel name length") := by
  refine ⟨by decide, by decide, by decide⟩

/-- Claim C4, amended: for every kernel name of length 1..255 (NUL-free
bytes) and 16-bit block size, the emitted frame is exactly `8 + length(n)`
bytes: an 8-byte header whose byte 6 is the name length and whose bytes 4-5
are the block size (all remaining header bits zero — the little-endian word
equals `length * 2^48 + block * 2^32`), followed by the raw name bytes with no
terminator; and reading that frame back yields the name and the block size. -/
theorem C4_kernel_frame (name : List Nat) (block : Nat) (t : trace_t)
    (tail : List Nat) (hbytes : ∀ b ∈ name, 0 < b ∧ b < 256)
    (h1 : 1 ≤ name.length) (h2 : name.length ≤ 255) (hb : block < 2 ^ 16)
    (ht : t.rest = (trace_write_kernel name block).2.1 ++ tail) :
    (trace_write_kernel name block).1 = 0 ∧
    (trace_write_kernel name block).2.2 = none ∧
    (trace_write_kernel name block).2.1.length = 8 + name.length ∧
    (trace_write_kernel name block).2.1.take 8 =
      leBytes 8 (name.length * 2 ^ 48 + block * 2 ^ 32) ∧
    (trace_write_kernel name block).2.1.drop 8 = name ∧
    trace_next t = (0, { t with rest := tail, kernel_name := some name
                                new_kernel := 1, block_size := block }, none) := by
  have he := trace_write_kernel_eq name block h1 h2 hb
  refine ⟨by rw [he], by rw [he], ?_, ?_, ?_,
    trace_next_kernel t name block tail h1 h2 hb ht⟩
  · rw [he]; simp [leBytes_length]
  · rw [he]; exact take_app_leBytes8 _ _
  · rw [he]; exact drop_app_leBytes8 _ _

/-- Witness for `C4_kernel_frame` at name "k", block size 32. -/
theorem C4_kernel_frame_witness :
    (trace_write_kernel [107] 32).1 = 0 ∧
    (trace_write_kernel [107] 32).2.2 = none ∧
    (trace_write_kernel [107] 32).2.1.length = 8 + [107].length ∧
    (trace_write_kernel [107] 32).2.1.take 8 =
      leBytes 8 ([107].length * 2 ^ 48 + 32 * 2 ^ 32) ∧
    (trace_write_kernel [107] 32).2.1.drop 8 = [107] ∧
    trace_next tC4w = (0, { tC4w with rest := [], kernel_name := some [107]
                                      new_kernel := 1, block_size := 32 },
      none) :=
  C4_kernel_frame [107] 32 tC4w [] (by decide) (by decide) (by decide)
    (by decide) (by simp [tC4w])

/-- Claim C5: opening succeeds exactly when the first 10 bytes are one of the
two magic sequences; the v2 magic yields detected version 2, the v3 magic
version 3; any other prefix — a source shorter than 10 bytes included — fails
and returns no stream. -/
theorem C5_open_magic (bytes : List Nat) :
    (bytes.take 10 = v2 →
      trace_open bytes = some ⟨bytes.drop 10, 2, 0, 0, none, record0⟩) ∧
    (bytes.take 10 = v3 →
      trace_open bytes = some ⟨bytes.drop 10, 3, 0, 0, none, record0⟩) ∧
    (bytes.take 10 ≠ v2 → bytes.take 10 ≠ v3 → trace_open bytes = none) ∧
    (bytes.length < 10 → trace_open bytes = none) := by
  refine ⟨?_, ?_, ?_, ?_⟩
  · intro h
    have hlen : 10 ≤ bytes.length := by
      have := congrArg List.length h
      simp only [List.length_take, v2] at this
      simp at this
      omega
    simp only [trace_open, h]
    rw [if_neg (by omega)]
    simp
  · intro h
    have hlen : 10 ≤ bytes.length := by
      have := congrArg List.length h
      simp only [List.length_take, v3] at this
      simp at this
      omega
    simp only [trace_open, h]
    rw [if_neg (by omega), if_neg (by decide)]
    simp
  · intro h2 h3
    simp only [trace_open, if_neg h2, if_neg h3]
    split <;> rfl
  · intro h
    simp only [trace_open]
    rw [if_pos h]

/-- Witness for `C5_open_magic`: the v3 magic plus one byte opens as version
3; a 3-byte garbage source fails. -/
theorem C5_open_magic_witness :
    trace_open (v3 ++ [7]) = some ⟨[7], 3, 0, 0, none, record0⟩ ∧
      trace_open [0, 1, 2] = none :=
  ⟨(C5_open_magic (v3 ++ [7])).2.1 (by decide),
   (C5_open_magic [0, 1, 2]).2.2.2 (by decide)⟩

/-- Claim C6, counterexample: `fileC6` is a valid trace file (a version-3
header and one well-formed kernel frame, read back cleanly), yet after
removing its last 3 bytes the reader does NOT fail on the damaged frame: the
cut reaches into the 8-byte frame header, the leading `fread` comes up short,
and `trace_next` returns 1 with `trace_last_error` NULL — exactly the clean
end-of-file indication the claim rules out. -/
theorem C6_counterexample :
    fileC6.length = 19 ∧
    trace_open fileC6 = some sC6 ∧ trace_next sC6 = (0, sC6k, none) ∧
    trace_next sC6k = (1, sC6k, none) ∧
    trace_open (fileC6.take (fileC6.length - 3)) = some sC6t ∧
    trace_next sC6t = (1, sC6t, none) := by
  refine ⟨by decide, by decide, by decide, by decide, by decide, by decide⟩

theorem take_sub_append (l m : List Nat) (k : Nat) (hk : k ≤ m.length) :
    (l ++ m).take ((l ++ m).length - k) = l ++ m.take (m.length - k) := by
  rw [List.length_append, List.take_append_eq_append_take,
    List.take_of_length_le (by omega),
    show l.length + m.length - k - l.length = m.length - k from by omega]

theorem kernelFrame_length (name : List Nat) (block : Nat)
    (h1 : 1 ≤ name.length) (h2 : name.length ≤ 255) (hb : block < 2 ^ 16) :
    (frameBytes (Frame.kernel name block)).length = 8 + name.length := by
  rw [frameBytes, trace_write_kernel_eq name block h1 h2 hb]
  simp [leBytes_length]

theorem recordFrame_length (r : trace_record_t) (h2 : r.addr_len < 2 ^ 8) :
    (frameBytes (Frame.record r)).length = 24 + 16 * r.addr_len := by
  show (recordWireBytes (__trace_pack r)).length = _
  rw [recordWireBytes_length, pack_units_length]
  simp only [wrap]
  rw [Nat.mod_eq_of_lt h2]

/-- Claim C6, amended: truncating the last 3 bytes of a valid trace file makes
the read of the damaged final frame fail with a read error — provided the
3-byte cut stays outside the frame's own 8-byte header, i.e. the final frame
is a record (at least 40 bytes) or a kernel frame with a name of at least 3
bytes.  (When the cut reaches into the 8-byte header — a final kernel frame
with a name shorter than 3 bytes — the reader instead reports a clean end of
file, see the counterexample.)  The reader never returns a wrong record: the
failing call returns 1 and leaves an error message. -/
theorem C6_truncation (fs : List Frame) (f : Frame)
    (hv : ∀ g ∈ fs, validFrame g) (hf : validFrame f)
    (hbig : ∀ name block, f = Frame.kernel name block → 3 ≤ name.length) :
    ∃ s0 : trace_t,
      trace_open ((fileOfFrames (fs ++ [f])).take
        ((fileOfFrames (fs ++ [f])).length - 3)) = some s0 ∧
      (trace_next (skipFrames s0 fs.length)).1 = 1 ∧
      ((trace_next (skipFrames s0 fs.length)).2.2 =
          some "unable to read kernel name length" ∨
        (trace_next (skipFrames s0 fs.length)).2.2 =
          some "unable to read record") := by
  have hflen : 8 ≤ (frameBytes f).length ∧
      3 ≤ (frameBytes f).length := by
    cases f with
    | kernel name block =>
      obtain ⟨_, h1, h2, hb⟩ := hf
      rw [kernelFrame_length name block h1 h2 hb]
      omega
    | record r =>
      obtain ⟨h1, h2, h3, _⟩ := hf
      have := recordFrame_length r h2
      omega
  have hsplit : (fileOfFrames (fs ++ [f])).take
      ((fileOfFrames (fs ++ [f])).length - 3) =
      v3 ++ (fs.flatMap frameBytes ++
        (frameBytes f).take ((frameBytes f).length - 3)) := by
    rw [fileOfFrames, List.flatMap_append, List.flatMap_cons,
      List.flatMap_nil, List.append_nil, ← List.append_assoc]
    rw [take_sub_append (v3 ++ fs.flatMap frameBytes) (frameBytes f) 3
      (by omega)]
    rw [List.append_assoc]
  refine ⟨⟨fs.flatMap frameBytes ++
    (frameBytes f).take ((frameBytes f).length - 3), 3, 0, 0, none, record0⟩,
    by rw [hsplit, trace_open_v3], ?_⟩
  have hskip : (skipFrames ⟨fs.flatMap frameBytes ++
      (frameBytes f).take ((frameBytes f).length - 3), 3, 0, 0, none,
      record0⟩ fs.length).rest =
      (frameBytes f).take ((frameBytes f).length - 3) :=
    skipFrames_rest fs _ _ hv rfl
  set sk := skipFrames ⟨fs.flatMap frameBytes ++
    (frameBytes f).take ((frameBytes f).length - 3), 3, 0, 0, none,
    record0⟩ fs.length with hsk
  cases f with
  | kernel name block =>
    obtain ⟨_, h1, h2, hb⟩ := hf
    have h3 : 3 ≤ name.length := hbig name block rfl
    have hbf : frameBytes (Frame.kernel name block) =
        leBytes 8 (name.length * 2 ^ 48 + block * 2 ^ 32) ++ name := by
      rw [frameBytes, trace_write_kernel_eq name block h1 h2 hb]
    have hrest : sk.rest = leBytes 8 (name.length * 2 ^ 48 + block * 2 ^ 32) ++
        name.take (name.length - 3) := by
      rw [hskip, hbf, take_sub_append _ _ 3 (by omega)]
    rw [trace_next_cut_kernel sk name block (name.length - 3) h1 h2 hb
      (by omega) hrest]
    exact ⟨rfl, Or.inl rfl⟩
  | record r =>
    have hx : representable24 r := hf
    have hrest : sk.rest = (recordWireBytes (__trace_pack r)).take
        ((frameBytes (Frame.record r)).length - 3) := by
      rw [hskip]
      rfl
    have hlen : (frameBytes (Frame.record r)).length =
        RECORD_RAW_SIZE r.addr_len := by
      rw [recordFrame_length r hx.2.1]
      rfl
    rw [trace_next_cut_record sk r ((frameBytes (Frame.record r)).length - 3)
      hx (by rw [hlen]; simp only [RECORD_RAW_SIZE]; omega)
      (by rw [hlen]; simp only [RECORD_RAW_SIZE]; omega) hrest]
    exact ⟨rfl, Or.inr rfl⟩

/-- Witness for `C6_truncation`: a file with a single kernel frame whose name
"klm" is 3 bytes long. -/
theorem C6_truncation_witness :
    ∃ s0 : trace_t,
      trace_open ((fileOfFrames [Frame.kernel [107, 108, 109] 32]).take
        ((fileOfFrames [Frame.kernel [107, 108, 109] 32]).length - 3)) =
        some s0 ∧
      (trace_next (skipFrames s0 ([] : List Frame).length)).1 = 1 ∧
      ((trace_next (skipFrames s0 ([] : List Frame).length)).2.2 =
          some "unable to read kernel name length" ∨
        (trace_next (skipFrames s0 ([] : List Frame).length)).2.2 =
          some "unable to read record") := by
  have h := C6_truncation [] (Frame.kernel [107, 108, 109] 32)
    (by intro g hg; cases hg) (by decide)
    (by intro n b hnb; cases hnb; decide)
  simpa using h

set_option maxRecDepth 10000 in
/-- Claim C7, counterexample: a 257-byte kernel name exceeds the 8-bit length
field, yet `trace_write_kernel` succeeds (returns 0, no error), emits one
single 9-byte frame — not multiple smaller records — and the frame silently
carries only the first `257 & 0xFF = 1` byte of the name.  The out-of-range
value is masked to fit the field, exactly what the claim says never happens. -/
theorem C7_counterexample :
    nameC7.length = 257 ∧
    (trace_write_kernel nameC7 5).1 = 0 ∧
    (trace_write_kernel nameC7 5).2.2 = none ∧
    (trace_write_kernel nameC7 5).2.1.length = 9 ∧
    (trace_write_kernel nameC7 5).2.1.drop 8 = [97] := by
  refine ⟨by decide, by decide, by decide, by decide, by decide⟩

/-- Claim C7, amended: an over-wide value is reduced modulo the field width
and silently truncated, never split into multiple smaller records: a kernel
name of length above 255 whose length mod 256 is nonzero is written as one
successful frame claiming length `length mod 256` and carrying only that many
name bytes (the call fails only when `length mod 256 = 0`, because the
zero-size name write fails); likewise `__trace_pack` masks the repeat count
to 8 bits and keeps only the 24-bit signed window of an offset (see
`C1_counterexample`). -/
theorem C7_silent_truncation (name : List Nat) (block : Nat)
    (h256 : 256 ≤ name.length) (hm : name.length % 256 ≠ 0)
    (hb : block < 2 ^ 16) :
    (trace_write_kernel name block).1 = 0 ∧
    (trace_write_kernel name block).2.2 = none ∧
    (trace_write_kernel name block).2.1 =
      leBytes 8 (name.length % 256 * 2 ^ 48 + block * 2 ^ 32) ++
        name.take (name.length % 256) ∧
    (trace_write_kernel name block).2.1.length = 8 + name.length % 256 ∧
    8 + name.length % 256 < 8 + name.length := by
  have hwrapb : wrap 16 block = block := Nat.mod_eq_of_lt hb
  have hheader : (name.length % 256) <<< 48 ||| (wrap 16 block <<< 32) =
      name.length % 256 * 2 ^ 48 + block * 2 ^ 32 := by
    rw [hwrapb, Nat.shiftLeft_eq, Nat.shiftLeft_eq]
    exact lor_disjoint (k := 48) (by omega) (by omega)
  have hout : trace_write_kernel name block =
      (0, leBytes 8 (name.length % 256 * 2 ^ 48 + block * 2 ^ 32) ++
        name.take (name.length % 256), none) := by
    simp only [trace_write_kernel, land255_eq, hheader]
    rw [if_neg hm]
  refine ⟨by rw [hout], by rw [hout], by rw [hout], ?_, by omega⟩
  rw [hout]
  simp only [List.length_append, leBytes_length, List.length_take]
  omega

set_option maxRecDepth 10000 in
/-- Witness for `C7_silent_truncation` at the 257-byte name `nameC7`. -/
theorem C7_silent_truncation_witness :
    (trace_write_kernel nameC7 5).1 = 0 ∧
    (trace_write_kernel nameC7 5).2.2 = none ∧
    (trace_write_kernel nameC7 5).2.1 =
      leBytes 8 (nameC7.length % 256 * 2 ^ 48 + 5 * 2 ^ 32) ++
        nameC7.take (nameC7.length % 256) ∧
    (trace_write_kernel nameC7 5).2.1.length = 8 + nameC7.length % 256 ∧
    8 + nameC7.length % 256 < 8 + nameC7.length :=
  C7_silent_truncation nameC7 5 (by decide) (by decide) (by decide)

/-- Claim C8: the emitted shard selection binds each producer to the shard
`smid % SLOTS_NUM` (`smid & (SLOTS_NUM - 1)` with `SLOTS_NUM = 4`, a power of
two), its alloc/commit counters sit at byte offset `shard × CACHELINE` with
`CACHELINE = 64`, and distinct shard indices land on distinct cache lines. -/
theorem C8_shard_selection (smid : Nat) (h : smid < 2 ^ 32) :
    SLOTS_NUM = 4 ∧ CACHELINE = 64 ∧
    slotOfSmid smid = smid % SLOTS_NUM ∧
    counterByteOffset smid = smid % SLOTS_NUM * CACHELINE ∧
    (∀ s1 s2 : Nat, s1 < SLOTS_NUM → s2 < SLOTS_NUM → s1 ≠ s2 →
      s1 * CACHELINE / CACHELINE ≠ s2 * CACHELINE / CACHELINE) := by
  have hslot : slotOfSmid smid = smid % SLOTS_NUM := by
    simp only [slotOfSmid, SLOTS_NUM, wrap]
    norm_num
    rw [land3_eq]
    omega
  refine ⟨rfl, rfl, hslot, ?_, ?_⟩
  · rw [counterByteOffset, hslot]
    simp only [wrap, CACHELINE, SLOTS_NUM]
    omega
  · intro s1 s2 hs1 hs2 hne
    simp only [CACHELINE, SLOTS_NUM] at *
    omega

/-- Witness for `C8_shard_selection` at `smid = 6` (shard 2, byte offset
128). -/
theorem C8_shard_selection_witness :
    SLOTS_NUM = 4 ∧ CACHELINE = 64 ∧
    slotOfSmid 6 = 6 % SLOTS_NUM ∧
    counterByteOffset 6 = 6 % SLOTS_NUM * CACHELINE ∧
    (∀ s1 s2 : Nat, s1 < SLOTS_NUM → s2 < SLOTS_NUM → s1 ≠ s2 →
      s1 * CACHELINE / CACHELINE ≠ s2 * CACHELINE / CACHELINE) :=
  C8_shard_selection 6 (by decide)

/-- Claim C9: for any version other than 2 and 3, `trace_write_header`
returns 1 with `trace_last_error = "invalid version"` and appends no bytes at
all to the file. -/
theorem C9_invalid_version (v : Int) (h2 : v ≠ 2) (h3 : v ≠ 3) :
    trace_write_header v = (1, [], some "invalid version") := by
  rw [trace_write_header, if_neg h2, if_neg h3]

/-- Witness for `C9_invalid_version` at version 5. -/
theorem C9_invalid_version_witness :
    trace_write_header 5 = (1, [], some "invalid version") :=
  C9_invalid_version 5 (by decide) (by decide)

/-- Claim C10: for every block size, writing a kernel frame with the empty
name returns 1 with `trace_last_error = "write error"` (the zero-size
`fwrite` of the name returns 0), and the failure is not atomic: the 8-byte
frame header has already been appended to the file. -/
theorem C10_empty_name (block : Nat) :
    trace_write_kernel [] block =
      (1, leBytes 8 (wrap 16 block <<< 32), some "write error") ∧
    (leBytes 8 (wrap 16 block <<< 32)).length = 8 := by
  constructor
  · simp [trace_write_kernel]
  · exact leBytes_length 8 _

end Cutrace
